import Mathlib

/-!
Verification development for the brick-set inventory tracker's local dataset
caching and refresh engine.  The definitions below are shallow embeddings of
the TypeScript services (`DataService`, `IndexedDBService`, `StorageService`):
pure functions mirror the source functions, stateful code is modelled by
explicit state passing, and the asynchronous write sequence of a refresh
cycle is modelled as an explicit list of write events in program order.
-/

namespace BrickInv

/-! ## CSV text parsing (`DataService.parseCSV` / `DataService.parseCSVLine`)

Characters are modelled as `List Char`.  `normalizeNewlines` embeds
`csv.replace(/\r\n/g, '\n').replace(/\r/g, '\n')`: both the chained regex
replaces and the single left-to-right scan below turn every `\r\n` pair into
one `\n` and every remaining lone `\r` into `\n`, scanning left to right.
`jsSplit` embeds `String.prototype.split` with a one-character separator.
-/

/-- Whitespace characters removed by `String.prototype.trim` (ASCII range;
the source data is ASCII CSV text). -/
def isJSWhitespace (c : Char) : Bool :=
  c = ' ' || c = '\t' || c = '\n' || c = '\r' || c = '\x0b' || c = '\x0c'

/-- Embeds `s.trim()` on the character list. -/
def trimChars (l : List Char) : List Char :=
  ((l.dropWhile isJSWhitespace).reverse.dropWhile isJSWhitespace).reverse

/-- Embeds `current.trim().replace(/\r/g, '')`, the finishing step applied to
every field pushed by `parseCSVLine`. -/
def fieldFinish (current : List Char) : String :=
  String.mk ((trimChars current).filter (fun c => c ≠ '\r'))

/-- Embeds the scanning loop of `DataService.parseCSVLine`: state `inQuotes`
and accumulator `current`, with the same guard order as the source
(`char === '"' && inQuotes && nextChar === '"'`, then `char === '"'`,
then `char === ',' && !inQuotes`, else append).  The one-character case is
the loop's final iteration, where `nextChar` is `undefined` and the escape
guard cannot fire. -/
def parseCSVLineAux (inQuotes : Bool) (current : List Char) : List Char → List String
  | [] => [fieldFinish current]
  | [c] =>
    if c = '"' then
      parseCSVLineAux (!inQuotes) current []
    else if c = ',' ∧ inQuotes = false then
      fieldFinish current :: parseCSVLineAux false [] []
    else
      parseCSVLineAux inQuotes (current ++ [c]) []
  | c :: d :: rest =>
    if inQuotes ∧ c = '"' ∧ d = '"' then
      parseCSVLineAux inQuotes (current ++ ['"']) rest
    else if c = '"' then
      parseCSVLineAux (!inQuotes) current (d :: rest)
    else if c = ',' ∧ inQuotes = false then
      fieldFinish current :: parseCSVLineAux false [] (d :: rest)
    else
      parseCSVLineAux inQuotes (current ++ [c]) (d :: rest)

/-- Embeds `DataService.parseCSVLine(line)`. -/
def parseCSVLine (line : List Char) : List String :=
  parseCSVLineAux false [] line

/-- Embeds the chained replaces
`csv.replace(/\r\n/g, '\n').replace(/\r/g, '\n')` of `parseCSV`. -/
def normalizeNewlines : List Char → List Char
  | [] => []
  | [c] => if c = '\r' then ['\n'] else [c]
  | c :: d :: rest =>
    if c = '\r' then
      if d = '\n' then '\n' :: normalizeNewlines rest
      else '\n' :: normalizeNewlines (d :: rest)
    else c :: normalizeNewlines (d :: rest)

/-- Embeds JavaScript `text.split(sep)` for a one-character separator:
`"".split` gives `[""]`, a trailing separator yields a trailing empty
element. -/
def jsSplit (sep : Char) (l : List Char) : List (List Char) :=
  l.foldr (fun c acc => if c = sep then [] :: acc else (c :: acc.headD []) :: acc.tail) [[]]

/-- Embeds `normalizedCsv.split('\n')` applied after newline normalization:
the row-splitting stage of `parseCSV`. -/
def csvLines (csv : List Char) : List (List Char) :=
  jsSplit '\n' (normalizeNewlines csv)

/-- Control characters stripped from header names:
`/[\u0000-\u001F\u007F-\u009F]/g`. -/
def isControlChar (c : Char) : Bool :=
  c.val ≤ 0x1F || (0x7F ≤ c.val && c.val ≤ 0x9F)

/-- Embeds the header cleaning
`h.trim().replace(/\r/g, '').replace(/\n/g, '')` followed by removal of all
control characters. -/
def cleanHeader (h : String) : String :=
  String.mk ((((trimChars h.toList).filter (fun c => c ≠ '\r')).filter
    (fun c => c ≠ '\n')).filter (fun c => !isControlChar c))

/-- Embeds the per-value cleaning
`values[j]?.trim().replace(/\r/g, '').replace(/\n/g, '')`. -/
def cleanValue (v : String) : String :=
  String.mk (((trimChars v.toList).filter (fun c => c ≠ '\r')).filter
    (fun c => c ≠ '\n'))

/-- Embeds `DataService.parseCSV` down to the level of records as
header/value pairs.  The header row defines field names; each later
non-empty (after trim) line is parsed with `parseCSVLine`; a value that is
missing or cleans to the empty string is omitted; a record with no remaining
pairs is dropped.  The final per-value boolean/number coercion of the source
maps each kept string value to a typed value one-to-one and is not modelled:
no claim depends on it. -/
def parseCSVPairs (csv : List Char) : List (List (String × String)) :=
  let lines := csvLines csv
  if lines.length < 2 then []
  else
    let headers := (parseCSVLine (lines.headD [])).map cleanHeader
    lines.tail.filterMap (fun rawLine =>
      let line := trimChars rawLine
      if line = [] then none
      else
        let values := parseCSVLine line
        let obj := (headers.zip (values.map cleanValue)).filter (fun p => p.2 ≠ "")
        if obj.length > 0 then some obj else none)

/-! ### Equation lemmas for the line scanner -/

theorem parseCSVLineAux_nil (iq : Bool) (cur : List Char) :
    parseCSVLineAux iq cur [] = [fieldFinish cur] :=
  rfl

theorem parseCSVLineAux_escape (cur : List Char) (rest : List Char) :
    parseCSVLineAux true cur ('"' :: '"' :: rest) =
      parseCSVLineAux true (cur ++ ['"']) rest := by
  simp [parseCSVLineAux]

theorem parseCSVLineAux_open (cur : List Char) (rest : List Char) :
    parseCSVLineAux false cur ('"' :: rest) = parseCSVLineAux true cur rest := by
  cases rest with
  | nil => simp [parseCSVLineAux]
  | cons d rest => simp [parseCSVLineAux]

theorem parseCSVLineAux_close (cur : List Char) (rest : List Char)
    (h : rest.head? ≠ some '"') :
    parseCSVLineAux true cur ('"' :: rest) = parseCSVLineAux false cur rest := by
  cases rest with
  | nil => simp [parseCSVLineAux]
  | cons d rest =>
    have hd : d ≠ '"' := by simpa using h
    simp [parseCSVLineAux, hd]

theorem parseCSVLineAux_comma (cur : List Char) (rest : List Char) :
    parseCSVLineAux false cur (',' :: rest) =
      fieldFinish cur :: parseCSVLineAux false [] rest := by
  cases rest with
  | nil => simp [parseCSVLineAux]
  | cons d rest => simp [parseCSVLineAux]

theorem parseCSVLineAux_other (iq : Bool) (cur : List Char) (c : Char) (rest : List Char)
    (hq : c ≠ '"') (hc : ¬(c = ',' ∧ iq = false)) :
    parseCSVLineAux iq cur (c :: rest) = parseCSVLineAux iq (cur ++ [c]) rest := by
  cases rest with
  | nil => simp [parseCSVLineAux, hq, hc]
  | cons d rest => simp [parseCSVLineAux, hq, hc]

/-- While inside quotes, a quote-free span of characters is copied verbatim
into the current field. -/
theorem parseCSVLineAux_scan_quoted (xs : List Char) (h : '"' ∉ xs) :
    ∀ (cur t : List Char),
      parseCSVLineAux true cur (xs ++ t) = parseCSVLineAux true (cur ++ xs) t := by
  induction xs with
  | nil => intro cur t; simp
  | cons c xs ih =>
    intro cur t
    have hc : c ≠ '"' := by intro hc; exact h (hc ▸ List.mem_cons_self c xs)
    have hxs : '"' ∉ xs := fun hm => h (List.mem_cons_of_mem c hm)
    rw [List.cons_append, parseCSVLineAux_other true cur c (xs ++ t) hc (by simp)]
    rw [ih hxs (cur ++ [c]) t]
    simp

/-! ### Newline normalization and splitting lemmas -/

theorem normalizeNewlines_cons (c : Char) (t : List Char) (h : c ≠ '\r') :
    normalizeNewlines (c :: t) = c :: normalizeNewlines t := by
  cases t with
  | nil => simp [normalizeNewlines, h]
  | cons d t' => simp [normalizeNewlines, h]

theorem normalizeNewlines_no_cr (a : List Char) (h : '\r' ∉ a) :
    normalizeNewlines a = a := by
  induction a with
  | nil => rfl
  | cons c t ih =>
    have hc : c ≠ '\r' := by intro hc; exact h (hc ▸ List.mem_cons_self c t)
    rw [normalizeNewlines_cons c t hc, ih (fun hm => h (List.mem_cons_of_mem c hm))]

theorem normalizeNewlines_append_no_cr (a b : List Char) (h : '\r' ∉ a) :
    normalizeNewlines (a ++ b) = a ++ normalizeNewlines b := by
  induction a with
  | nil => rfl
  | cons c t ih =>
    have hc : c ≠ '\r' := by intro hc; exact h (hc ▸ List.mem_cons_self c t)
    rw [List.cons_append, normalizeNewlines_cons c (t ++ b) hc,
      ih (fun hm => h (List.mem_cons_of_mem c hm)), List.cons_append]

theorem normalizeNewlines_crlf (z : List Char) :
    normalizeNewlines ('\r' :: '\n' :: z) = '\n' :: normalizeNewlines z := by
  simp [normalizeNewlines]

theorem normalizeNewlines_cr (z : List Char) (h : z.head? ≠ some '\n') :
    normalizeNewlines ('\r' :: z) = '\n' :: normalizeNewlines z := by
  cases z with
  | nil => simp [normalizeNewlines]
  | cons d z' =>
    have hd : d ≠ '\n' := by simpa using h
    simp [normalizeNewlines, hd]

theorem jsSplit_cons_sep (sep : Char) (l : List Char) :
    jsSplit sep (sep :: l) = [] :: jsSplit sep l := by
  simp [jsSplit]

theorem jsSplit_cons_ne (sep c : Char) (l : List Char) (h : c ≠ sep) :
    jsSplit sep (c :: l) =
      (c :: (jsSplit sep l).headD []) :: (jsSplit sep l).tail := by
  simp [jsSplit, h]

theorem jsSplit_sep_free (sep : Char) (a : List Char) (h : sep ∉ a) :
    jsSplit sep a = [a] := by
  induction a with
  | nil => rfl
  | cons c t ih =>
    have hc : c ≠ sep := by intro hc; exact h (hc ▸ List.mem_cons_self c t)
    rw [jsSplit_cons_ne sep c t hc, ih (fun hm => h (List.mem_cons_of_mem c hm))]
    rfl

theorem jsSplit_append_sep (sep : Char) (a b : List Char) (h : sep ∉ a) :
    jsSplit sep (a ++ sep :: b) = a :: jsSplit sep b := by
  induction a with
  | nil => exact jsSplit_cons_sep sep b
  | cons c t ih =>
    have hc : c ≠ sep := by intro hc; exact h (hc ▸ List.mem_cons_self c t)
    rw [List.cons_append, jsSplit_cons_ne sep c (t ++ sep :: b) hc,
      ih (fun hm => h (List.mem_cons_of_mem c hm))]
    rfl

/-! ### Assembling a text from lines with mixed line-ending styles -/

/-- One of the three line-ending styles the source claims to normalize. -/
inductive SepStyle : Type
  | lf
  | cr
  | crlf
deriving DecidableEq

def sepChars : SepStyle → List Char
  | .lf => ['\n']
  | .cr => ['\r']
  | .crlf => ['\r', '\n']

/-- A text consisting of a first line followed by further lines, each
preceded by a chosen line-ending style. -/
def assembleLines : List Char → List (SepStyle × List Char) → List Char
  | first, [] => first
  | first, (sep, l) :: rest => first ++ sepChars sep ++ assembleLines l rest

theorem assembleLines_head (l : List Char) (rest : List (SepStyle × List Char))
    (h : l ≠ []) : (assembleLines l rest).head? = l.head? := by
  cases rest with
  | nil => rfl
  | cons p rest =>
    cases l with
    | nil => exact absurd rfl h
    | cons c t => cases p with | mk sep m => simp [assembleLines]

/-- Row splitting recovers the lines of a text assembled from `\r`/`\n`-free
nonempty lines joined by any mix of LF, CR and CRLF separators: the
normalization step makes the split independent of the line-ending style. -/
theorem csvLines_assembleLines (first : List Char) (rest : List (SepStyle × List Char))
    (hf : '\n' ∉ first ∧ '\r' ∉ first)
    (hr : ∀ p ∈ rest, ('\n' ∉ p.2 ∧ '\r' ∉ p.2) ∧ p.2 ≠ []) :
    csvLines (assembleLines first rest) = first :: rest.map Prod.snd := by
  induction rest generalizing first with
  | nil =>
    unfold csvLines assembleLines
    rw [normalizeNewlines_no_cr first hf.2, jsSplit_sep_free '\n' first hf.1]
    rfl
  | cons p rest ih =>
    obtain ⟨sep, l⟩ := p
    have hl := hr ⟨sep, l⟩ (List.mem_cons_self _ _)
    have hrest : ∀ p ∈ rest, ('\n' ∉ p.2 ∧ '\r' ∉ p.2) ∧ p.2 ≠ [] :=
      fun p hp => hr p (List.mem_cons_of_mem _ hp)
    have hz : normalizeNewlines (sepChars sep ++ assembleLines l rest) =
        '\n' :: normalizeNewlines (assembleLines l rest) := by
      cases sep with
      | lf =>
        show normalizeNewlines ('\n' :: assembleLines l rest) = _
        exact normalizeNewlines_cons '\n' _ (by decide)
      | cr =>
        show normalizeNewlines ('\r' :: assembleLines l rest) = _
        refine normalizeNewlines_cr _ ?_
        rw [assembleLines_head l rest hl.2]
        cases l with
        | nil => exact absurd rfl hl.2
        | cons c t =>
          have : c ≠ '\n' := by
            intro hc; exact hl.1.1 (hc ▸ List.mem_cons_self c t)
          simpa using this
      | crlf =>
        show normalizeNewlines ('\r' :: '\n' :: assembleLines l rest) = _
        exact normalizeNewlines_crlf _
    show jsSplit '\n' (normalizeNewlines (assembleLines first (⟨sep, l⟩ :: rest))) = _
    rw [show assembleLines first (⟨sep, l⟩ :: rest) =
        first ++ (sepChars sep ++ assembleLines l rest) by
      simp [assembleLines]]
    rw [normalizeNewlines_append_no_cr first _ hf.2, hz,
      jsSplit_append_sep '\n' first _ hf.1]
    have := ih l hl.1 hrest
    unfold csvLines at this
    rw [this]
    rfl

/-! ### Claim C9 -/

/-- Claim C9 as stated is false: the parser splits the text into rows before
any quote handling, so a quoted field containing a newline is cut at the
newline.  On the concrete source text `a,b\n"x\ny",2` the claim predicts the
single record `[(a, x\ny), (b, 2)]`, but the parser produces two records,
neither holding the field value `x\ny`. -/
theorem c9_counterexample :
    parseCSVPairs ("a,b\n\"x\ny\",2").toList = [[("a", "x")], [("a", "y,2")]] ∧
    parseCSVPairs ("a,b\n\"x\ny\",2").toList ≠ [[("a", "x\ny"), ("b", "2")]] := by
  constructor
  · rfl
  · decide

/-- Claim C9 (amended): the parser normalizes all line-ending styles before
splitting into rows, so splitting a text assembled from `\r`/`\n`-free
nonempty lines joined by any mix of LF, CR and CRLF recovers exactly those
lines; within a row, a quoted field containing the field separator is parsed
as a single field value, and a doubled quote inside a quoted field unescapes
to one literal quote character.  A quoted field containing a newline,
however, is split at the newline (see the counterexample). -/
theorem c9_amended :
    (∀ (first : List Char) (rest : List (SepStyle × List Char)),
      ('\n' ∉ first ∧ '\r' ∉ first) →
      (∀ p ∈ rest, ('\n' ∉ p.2 ∧ '\r' ∉ p.2) ∧ p.2 ≠ []) →
      csvLines (assembleLines first rest) = first :: rest.map Prod.snd) ∧
    (∀ (xs ys : List Char), '"' ∉ xs →
      parseCSVLine ('"' :: xs ++ '"' :: ',' :: ys) =
        fieldFinish xs :: parseCSVLine ys) ∧
    (∀ (xs ys : List Char), '"' ∉ xs → '"' ∉ ys →
      parseCSVLine ('"' :: xs ++ '"' :: '"' :: ys ++ ['"']) =
        [fieldFinish (xs ++ '"' :: ys)]) := by
  refine ⟨csvLines_assembleLines, ?_, ?_⟩
  · intro xs ys hxs
    unfold parseCSVLine
    simp only [List.cons_append, List.append_assoc]
    rw [parseCSVLineAux_open]
    rw [parseCSVLineAux_scan_quoted xs hxs [] ('"' :: ',' :: ys)]
    rw [parseCSVLineAux_close _ _ (by simp)]
    rw [parseCSVLineAux_comma]
    simp [parseCSVLine]
  · intro xs ys hxs hys
    unfold parseCSVLine
    simp only [List.cons_append, List.append_assoc]
    rw [parseCSVLineAux_open]
    rw [parseCSVLineAux_scan_quoted xs hxs [] ('"' :: '"' :: (ys ++ ['"']))]
    rw [parseCSVLineAux_escape]
    rw [parseCSVLineAux_scan_quoted ys hys _ ['"']]
    rw [parseCSVLineAux_close _ _ (by simp)]
    rw [parseCSVLineAux_nil]
    simp

/-- Witness for `c9_amended` at concrete inputs. -/
theorem c9_amended_witness :
    csvLines (assembleLines ['a'] [(SepStyle.crlf, ['b']), (SepStyle.cr, ['c'])]) =
      ['a'] :: [(SepStyle.crlf, ['b']), (SepStyle.cr, ['c'])].map Prod.snd ∧
    parseCSVLine ('"' :: ['h', 'i', ','] ++ '"' :: ',' :: ['z']) =
      fieldFinish ['h', 'i', ','] :: parseCSVLine ['z'] ∧
    parseCSVLine ('"' :: ['a'] ++ '"' :: '"' :: ['b'] ++ ['"']) =
      [fieldFinish (['a'] ++ '"' :: ['b'])] :=
  ⟨c9_amended.1 ['a'] [(SepStyle.crlf, ['b']), (SepStyle.cr, ['c'])] (by decide) (by decide),
   c9_amended.2.1 ['h', 'i', ','] ['z'] (by decide),
   c9_amended.2.2 ['a'] ['b'] (by decide) (by decide)⟩

/-! ## Catalog record types (`models.ts`)

Numeric CSV fields are modelled as `Nat` (the source data carries
non-negative integers parsed by `Number(...)`). -/

structure Inventory where
  id : Nat
  version : Nat
  set_num : String
deriving DecidableEq, Repr

structure InventoryPart where
  inventory_id : Nat
  img_url : String
  part_num : String
  color_id : Nat
  quantity : Nat
  is_spare : Bool
deriving DecidableEq, Repr

structure InventoryMinifig where
  inventory_id : Nat
  fig_num : String
  quantity : Nat
deriving DecidableEq, Repr

structure InventorySet where
  inventory_id : Nat
  set_num : String
  quantity : Nat
deriving DecidableEq, Repr

structure Part where
  part_num : String
  name : String
  part_cat_id : Nat
deriving DecidableEq, Repr

structure Color where
  id : Nat
  name : String
  rgb : String
  is_trans : Bool
deriving DecidableEq, Repr

structure PartCategory where
  id : Nat
  name : String
deriving DecidableEq, Repr

structure PartRelationship where
  rel_type : String
  child_part_num : String
  parent_part_num : String
deriving DecidableEq, Repr

structure Element where
  element_id : String
  part_num : String
  color_id : Nat
deriving DecidableEq, Repr

structure Minifig where
  fig_num : String
  name : String
  num_parts : Nat
  img_url : String
deriving DecidableEq, Repr

structure PartialSet where
  set_num : String
  name : String
  year : Nat
  theme_id : Nat
  num_parts : Nat
  img_url : String
deriving DecidableEq, Repr

structure Theme where
  id : Nat
  name : String
  parent_id : Nat
deriving DecidableEq, Repr

/-! ## Composite key generators (`IndexedDBService.generate*Key`)

In the source, `field?.toString() || 'unknown'` substitutes `'unknown'` for
a missing/empty field: a present numeric field stringifies to a nonempty
numeral (also `"0"`, which is a truthy string), so only empty string fields
fall back to `'unknown'` in the typed embedding. -/

def generateInventoryPartKey (item : InventoryPart) : String :=
  let inventoryId := toString item.inventory_id
  let partNum := if item.part_num = "" then "unknown" else item.part_num
  let colorId := toString item.color_id
  let spareFlag := if item.is_spare then "spare" else "normal"
  inventoryId ++ "_" ++ partNum ++ "_" ++ colorId ++ "_" ++ spareFlag

def generateInventoryMinifigKey (item : InventoryMinifig) : String :=
  let inventoryId := toString item.inventory_id
  let figNum := if item.fig_num = "" then "unknown" else item.fig_num
  inventoryId ++ "_" ++ figNum

def generateInventorySetKey (item : InventorySet) : String :=
  let inventoryId := toString item.inventory_id
  let setNum := if item.set_num = "" then "unknown" else item.set_num
  inventoryId ++ "_" ++ setNum

def generatePartRelationshipKey (item : PartRelationship) : String :=
  let childPart := if item.child_part_num = "" then "unknown" else item.child_part_num
  let parentPart := if item.parent_part_num = "" then "unknown" else item.parent_part_num
  childPart ++ "_" ++ parentPart

/-! ## Object store semantics (`saveToObjectStore` / `loadFromObjectStore`)

An object store's contents are an association list from key to record.
IndexedDB keys of the stores with a numeric `keyPath` are numbers; they are
represented by their decimal string, which is injective, so key collisions
are represented faithfully. -/

/-- Embeds `store.put(item, key)` / `store.put(item)`: an existing binding
for the key is overwritten, a new key is added. -/
def putKV {Rec : Type} (st : List (String × Rec)) (k : String) (v : Rec) :
    List (String × Rec) :=
  if st.any (fun p => p.1 = k) then
    st.map (fun p => if p.1 = k then (k, v) else p)
  else st ++ [(k, v)]

/-- Embeds `store.delete(key)`. -/
def deleteKV {Rec : Type} (st : List (String × Rec)) (k : String) :
    List (String × Rec) :=
  st.filter (fun p => p.1 ≠ k)

/-- Key handling of one item in the batch loop of `saveToObjectStore`: with
a `keyGenerator`, the item is skipped when the generated key is invalid
(`null`, `undefined` or `''` in the source; in the typed embedding only `''`
remains), otherwise `put(item, key)`; without a generator the store's
`keyPath` projection supplies the key (`put(item)`). -/
def putItem {Rec : Type} (keyGen : Option (Rec → String)) (keyPath : Rec → String)
    (st : List (String × Rec)) (item : Rec) : List (String × Rec) :=
  match keyGen with
  | some f => if f item = "" then st else putKV st (f item) item
  | none => putKV st (keyPath item) item

/-- Dynamic batch sizing of `saveToObjectStore`. -/
def batchSizeFor (n : Nat) : Nat :=
  if n < 10000 then 5000 else if n < 100000 then 3000 else 2000

/-- Embeds `Math.ceil(data.length / batchSize)`. -/
def totalBatchesFor (n : Nat) : Nat :=
  (n + batchSizeFor n - 1) / batchSizeFor n

/-- Embeds the effect of `saveToObjectStore` on the destination store's
contents: the store is cleared first (one `clear()` per call, not per
batch), then the items are written batch by batch, in data order. -/
def saveToObjectStoreState {Rec : Type} (keyGen : Option (Rec → String))
    (keyPath : Rec → String) (data : List Rec) : List (String × Rec) :=
  (List.range (totalBatchesFor data.length)).foldl
    (fun st b =>
      ((data.drop (b * batchSizeFor data.length)).take (batchSizeFor data.length)).foldl
        (putItem keyGen keyPath) st)
    []

/-- Insertion into a key-sorted association list, keeping ascending key
order. -/
def insertByKey {Rec : Type} (p : String × Rec) :
    List (String × Rec) → List (String × Rec)
  | [] => [p]
  | q :: rest => if p.1 < q.1 then p :: q :: rest else q :: insertByKey p rest

/-- Sorts a store's entries into ascending key order, the order in which
`IDBObjectStore.getAll()` returns records. -/
def sortByKey {Rec : Type} : List (String × Rec) → List (String × Rec)
  | [] => []
  | p :: rest => insertByKey p (sortByKey rest)

/-- Embeds `loadFromObjectStore`: `getAll()` returns every stored record in
ascending key order (the store's string keys compare lexicographically), not
in insertion order. -/
def loadFromObjectStoreState {Rec : Type} (st : List (String × Rec)) : List Rec :=
  (sortByKey st).map Prod.snd

/-- The key under which an item is stored. -/
def effectiveKey {Rec : Type} (keyGen : Option (Rec → String))
    (keyPath : Rec → String) (item : Rec) : String :=
  match keyGen with
  | some f => f item
  | none => keyPath item

/-! ### Batch decomposition -/

theorem le_ceil_mul (n bs : Nat) (h : 0 < bs) : n ≤ ((n + bs - 1) / bs) * bs := by
  have h2 := Nat.div_add_mod (n + bs - 1) bs
  have h3 : (n + bs - 1) % bs < bs := Nat.mod_lt _ h
  rw [Nat.mul_comm]
  generalize hk : bs * ((n + bs - 1) / bs) = k at h2 ⊢
  generalize hr : (n + bs - 1) % bs = r at h2 h3
  omega

theorem batchSizeFor_pos (n : Nat) : 0 < batchSizeFor n := by
  simp only [batchSizeFor]
  split
  · omega
  · split <;> omega

/-- Folding batch by batch over absolute slices equals folding over the
whole list. -/
theorem foldl_batches {Rec α : Type} (f : α → Rec → α) (bs : Nat) :
    ∀ (m : Nat) (data : List Rec), data.length ≤ m * bs → ∀ (init : α),
      (List.range m).foldl (fun st b => ((data.drop (b * bs)).take bs).foldl f st) init =
        data.foldl f init := by
  intro m
  induction m with
  | zero =>
    intro data hlen init
    have : data = [] := List.eq_nil_of_length_eq_zero (by omega)
    subst this
    rfl
  | succ m ih =>
    intro data hlen init
    rw [List.range_succ_eq_map, List.foldl_cons, List.foldl_map]
    have hstep : ∀ (st : α) (b : Nat),
        ((data.drop ((b + 1) * bs)).take bs).foldl f st =
          (((data.drop bs).drop (b * bs)).take bs).foldl f st := by
      intro st b
      have harith : (b + 1) * bs = bs + b * bs := by ring
      rw [harith, List.drop_drop]
    have hlen2 : (data.drop bs).length ≤ m * bs := by
      rw [List.length_drop]
      have hsm : (m + 1) * bs = m * bs + bs := by ring
      rw [hsm] at hlen
      generalize hk : m * bs = k at hlen ⊢
      omega
    have hfun : (fun (st : α) (b : Nat) => ((data.drop ((b + 1) * bs)).take bs).foldl f st) =
        (fun (st : α) (b : Nat) => (((data.drop bs).drop (b * bs)).take bs).foldl f st) := by
      funext st b
      exact hstep st b
    simp only [Nat.succ_eq_add_one, Nat.zero_mul, List.drop_zero]
    rw [hfun, ih (data.drop bs) hlen2, ← List.foldl_append, List.take_append_drop]

/-- Batching is transparent: `saveToObjectStore` writes exactly the input
items in order. -/
theorem saveToObjectStoreState_eq_foldl {Rec : Type} (keyGen : Option (Rec → String))
    (keyPath : Rec → String) (data : List Rec) :
    saveToObjectStoreState keyGen keyPath data =
      data.foldl (putItem keyGen keyPath) [] := by
  unfold saveToObjectStoreState totalBatchesFor
  exact foldl_batches (putItem keyGen keyPath) (batchSizeFor data.length) _ data
    (le_ceil_mul data.length _ (batchSizeFor_pos data.length)) []

/-! ### Round trip -/

theorem putKV_fresh {Rec : Type} (st : List (String × Rec)) (k : String) (v : Rec)
    (h : k ∉ st.map Prod.fst) : putKV st k v = st ++ [(k, v)] := by
  have hany : ¬(st.any (fun p => p.1 = k) = true) := by
    rw [List.any_eq_true]
    rintro ⟨p, hp, hpk⟩
    rw [decide_eq_true_eq] at hpk
    exact h (hpk ▸ List.mem_map_of_mem Prod.fst hp)
  unfold putKV
  rw [if_neg hany]

theorem putItem_eq_putKV {Rec : Type} (keyGen : Option (Rec → String))
    (keyPath : Rec → String) (st : List (String × Rec)) (item : Rec)
    (h : keyGen = none ∨ effectiveKey keyGen keyPath item ≠ "") :
    putItem keyGen keyPath st item =
      putKV st (effectiveKey keyGen keyPath item) item := by
  cases keyGen with
  | none => rfl
  | some f =>
    rcases h with h | h
    · exact absurd h (by simp)
    · simp only [putItem, effectiveKey] at h ⊢
      rw [if_neg h]

theorem foldl_putItem_fresh {Rec : Type} (keyGen : Option (Rec → String))
    (keyPath : Rec → String) :
    ∀ (data : List Rec) (pre : List (String × Rec)),
      (pre.map Prod.fst ++ data.map (effectiveKey keyGen keyPath)).Nodup →
      (∀ r ∈ data, keyGen = none ∨ effectiveKey keyGen keyPath r ≠ "") →
      data.foldl (putItem keyGen keyPath) pre =
        pre ++ data.map (fun r => (effectiveKey keyGen keyPath r, r)) := by
  intro data
  induction data with
  | nil => intro pre _ _; simp
  | cons r data ih =>
    intro pre hnodup hne
    have hcons : (r :: data).map (effectiveKey keyGen keyPath) =
        effectiveKey keyGen keyPath r :: data.map (effectiveKey keyGen keyPath) :=
      List.map_cons _ _ _
    rw [hcons] at hnodup
    have hdisj := (List.nodup_append.1 hnodup).2.2
    have hfresh : effectiveKey keyGen keyPath r ∉ pre.map Prod.fst :=
      fun hmem => hdisj hmem (List.mem_cons_self _ _)
    rw [List.foldl_cons,
      putItem_eq_putKV keyGen keyPath pre r (hne r (List.mem_cons_self r data)),
      putKV_fresh pre _ r hfresh]
    rw [ih (pre ++ [(effectiveKey keyGen keyPath r, r)]) ?_ ?_]
    · simp
    · simpa using hnodup
    · exact fun s hs => hne s (List.mem_cons_of_mem r hs)

/-! ### Claim C5 -/

def c5Row1 : InventoryPart :=
  { inventory_id := 1, img_url := "", part_num := "3001", color_id := 5,
    quantity := 1, is_spare := false }

def c5Row2 : InventoryPart :=
  { inventory_id := 1, img_url := "", part_num := "3001", color_id := 5,
    quantity := 2, is_spare := false }

/-- Claim C5 as stated is false: two distinct records that generate the same
composite key overwrite each other (`put` replaces an existing binding), so
the read-back set is strictly smaller than the written set even though every
individual write succeeds.  The two rows below differ only in `quantity` and
share the composite key `1_3001_5_normal`. -/
theorem c5_counterexample :
    generateInventoryPartKey c5Row1 = generateInventoryPartKey c5Row2 ∧
    c5Row1 ≠ c5Row2 ∧
    loadFromObjectStoreState (saveToObjectStoreState (some generateInventoryPartKey)
      (fun _ => "") [c5Row1, c5Row2]) = [c5Row2] ∧
    c5Row1 ∉ loadFromObjectStoreState (saveToObjectStoreState (some generateInventoryPartKey)
      (fun _ => "") [c5Row1, c5Row2]) := by
  refine ⟨rfl, by decide, by decide, by decide⟩

theorem insertByKey_perm {Rec : Type} (p : String × Rec) (l : List (String × Rec)) :
    (insertByKey p l).Perm (p :: l) := by
  induction l with
  | nil => exact List.Perm.refl _
  | cons q rest ih =>
    unfold insertByKey
    split
    · exact List.Perm.refl _
    · exact (ih.cons q).trans (List.Perm.swap p q rest)

theorem sortByKey_perm {Rec : Type} (l : List (String × Rec)) :
    (sortByKey l).Perm l := by
  induction l with
  | nil => exact List.Perm.refl _
  | cons p rest ih =>
    exact (insertByKey_perm p (sortByKey rest)).trans (ih.cons p)

/-- Claim C5 (amended): writing a table through the structured cache store
and reading it back returns exactly the written records up to order — the
read-back list is a permutation of the written list — provided the key
assignment is collision-free on the written list and, for composite-key
tables, never produces the empty key. -/
theorem c5_roundtrip_amended {Rec : Type} (keyGen : Option (Rec → String))
    (keyPath : Rec → String) (data : List Rec)
    (hnodup : (data.map (effectiveKey keyGen keyPath)).Nodup)
    (hne : ∀ r ∈ data, keyGen = none ∨ effectiveKey keyGen keyPath r ≠ "") :
    (loadFromObjectStoreState (saveToObjectStoreState keyGen keyPath data)).Perm
      data := by
  rw [saveToObjectStoreState_eq_foldl,
    foldl_putItem_fresh keyGen keyPath data [] (by simpa using hnodup) hne]
  unfold loadFromObjectStoreState
  refine (List.Perm.map Prod.snd (sortByKey_perm _)).trans ?_
  simp only [List.nil_append, List.map_map]
  have hid : (Prod.snd ∘ fun r : Rec => (effectiveKey keyGen keyPath r, r)) = id := rfl
  rw [hid, List.map_id]

/-- Witness for `c5_roundtrip_amended`: two rows with distinct composite keys
round-trip as a permutation of what was written. -/
theorem c5_roundtrip_witness :
    (loadFromObjectStoreState (saveToObjectStoreState (some generateInventoryPartKey)
      (fun _ => "") [c5Row1, { c5Row2 with color_id := 6 }])).Perm
      [c5Row1, { c5Row2 with color_id := 6 }] := by
  refine c5_roundtrip_amended (some generateInventoryPartKey) (fun _ => "") _ (by decide) ?_
  intro r hr
  rcases List.mem_cons.1 hr with rfl | hr
  · exact Or.inr (by decide)
  · rcases List.mem_cons.1 hr with rfl | hr
    · exact Or.inr (by decide)
    · exact absurd hr (List.not_mem_nil r)

/-! ## The refresh write cycle (`IndexedDBService.saveCSVDataCache`)

The thirteen CSV object stores of the `CSV_STORES` constant are modelled as
an enumeration; `csvStoreName` records the store name each constructor
stands for. -/

inductive CSVStore : Type
  | inventories
  | inventoryParts
  | inventoryMinifigs
  | inventorySets
  | parts
  | colors
  | partCategories
  | partRelationships
  | elements
  | minifigs
  | sets
  | themes
  | metadata
deriving DecidableEq, Repr

def csvStoreName : CSVStore → String
  | .inventories => "csv_inventories"
  | .inventoryParts => "csv_inventory_parts"
  | .inventoryMinifigs => "csv_inventory_minifigs"
  | .inventorySets => "csv_inventory_sets"
  | .parts => "csv_parts"
  | .colors => "csv_colors"
  | .partCategories => "csv_part_categories"
  | .partRelationships => "csv_part_relationships"
  | .elements => "csv_elements"
  | .minifigs => "csv_minifigs"
  | .sets => "csv_sets"
  | .themes => "csv_themes"
  | .metadata => "csv_metadata"

/-- Records held by the `csv_metadata` store: the cache-info record
`{ key: 'csv_cache_info', timestamp, version }` and the population marker
`{ key: 'population_in_progress', timestamp, inProgress }`. -/
inductive MetaRec : Type
  | cacheInfo (timestamp : Int) (version : String)
  | populationFlag (timestamp : Int) (inProgress : Bool)
deriving DecidableEq, Repr

/-- Keys of `keyPath` stores: IndexedDB stores the `keyPath` field itself as
the key; numeric keys are represented by their decimal string, which is
injective. -/
def inventoryKeyPath (r : Inventory) : String := toString r.id

def partKeyPath (r : Part) : String := r.part_num

def colorKeyPath (r : Color) : String := toString r.id

def partCategoryKeyPath (r : PartCategory) : String := toString r.id

def elementKeyPath (r : Element) : String := r.element_id

def minifigKeyPath (r : Minifig) : String := r.fig_num

def setKeyPath (r : PartialSet) : String := r.set_num

def themeKeyPath (r : Theme) : String := toString r.id

/-- Embeds the `CSVDataCache` interface handed to `saveCSVDataCache`. -/
structure CSVDataCacheM where
  inventories : List Inventory
  inventoryParts : List InventoryPart
  inventoryMinifigs : List InventoryMinifig
  inventorySets : List InventorySet
  parts : List Part
  colors : List Color
  partCategories : List PartCategory
  partRelationships : List PartRelationship
  elements : List Element
  minifigs : List Minifig
  sets : List PartialSet
  themes : List Theme
  timestamp : Int
  version : String

/-- The database: one partition per catalog entity, the metadata partition,
and the separate user-data store `appState` (content type `α`). -/
structure BrickDB (α : Type) where
  csvInventories : List (String × Inventory)
  csvInventoryParts : List (String × InventoryPart)
  csvInventoryMinifigs : List (String × InventoryMinifig)
  csvInventorySets : List (String × InventorySet)
  csvParts : List (String × Part)
  csvColors : List (String × Color)
  csvPartCategories : List (String × PartCategory)
  csvPartRelationships : List (String × PartRelationship)
  csvElements : List (String × Element)
  csvMinifigs : List (String × Minifig)
  csvSets : List (String × PartialSet)
  csvThemes : List (String × Theme)
  csvMetadata : List (String × MetaRec)
  appState : List (String × α)

/-- Embeds the effect of one full `saveCSVDataCache` call on the database,
on the happy path (no thrown errors): set the population flag, then run the
twelve `storeDataSteps` in source order — a step whose data array is empty
is skipped entirely (`continue`), otherwise `saveToObjectStore` clears the
partition and writes the new records — then write the `csv_cache_info`
metadata record, then delete the population flag.  `now` is `Date.now()` at
the time the population flag is set. -/
def saveCSVDataCacheState {α : Type} (now : Int) (db : BrickDB α) (c : CSVDataCacheM) :
    BrickDB α :=
  let db := { db with csvMetadata := putKV db.csvMetadata "population_in_progress" (MetaRec.populationFlag now true) }
  let db := { db with csvInventories := (if c.inventories = [] then db.csvInventories else saveToObjectStoreState none inventoryKeyPath c.inventories) }
  let db := { db with csvInventoryParts := (if c.inventoryParts = [] then db.csvInventoryParts else saveToObjectStoreState (some generateInventoryPartKey) (fun _ => "") c.inventoryParts) }
  let db := { db with csvInventoryMinifigs := (if c.inventoryMinifigs = [] then db.csvInventoryMinifigs else saveToObjectStoreState (some generateInventoryMinifigKey) (fun _ => "") c.inventoryMinifigs) }
  let db := { db with csvInventorySets := (if c.inventorySets = [] then db.csvInventorySets else saveToObjectStoreState (some generateInventorySetKey) (fun _ => "") c.inventorySets) }
  let db := { db with csvParts := (if c.parts = [] then db.csvParts else saveToObjectStoreState none partKeyPath c.parts) }
  let db := { db with csvColors := (if c.colors = [] then db.csvColors else saveToObjectStoreState none colorKeyPath c.colors) }
  let db := { db with csvPartCategories := (if c.partCategories = [] then db.csvPartCategories else saveToObjectStoreState none partCategoryKeyPath c.partCategories) }
  let db := { db with csvPartRelationships := (if c.partRelationships = [] then db.csvPartRelationships else saveToObjectStoreState (some generatePartRelationshipKey) (fun _ => "") c.partRelationships) }
  let db := { db with csvElements := (if c.elements = [] then db.csvElements else saveToObjectStoreState none elementKeyPath c.elements) }
  let db := { db with csvMinifigs := (if c.minifigs = [] then db.csvMinifigs else saveToObjectStoreState none minifigKeyPath c.minifigs) }
  let db := { db with csvSets := (if c.sets = [] then db.csvSets else saveToObjectStoreState none setKeyPath c.sets) }
  let db := { db with csvThemes := (if c.themes = [] then db.csvThemes else saveToObjectStoreState none themeKeyPath c.themes) }
  let db := { db with csvMetadata := putKV db.csvMetadata "csv_cache_info" (MetaRec.cacheInfo c.timestamp c.version) }
  { db with csvMetadata := deleteKV db.csvMetadata "population_in_progress" }

/-! ### The write-event trace of a refresh cycle -/

/-- One store write issued during a refresh cycle, in program order. -/
inductive WriteEv : Type
  | setPopulationFlag
  | clearStore (store : CSVStore)
  | putRecord (store : CSVStore) (key : String)
  | putMetadata (timestamp : Int) (version : String)
  | clearPopulationFlag
deriving DecidableEq, Repr

/-- The `put` event one item gives rise to: with a `keyGenerator` the item
is skipped (no event) when its key is invalid, otherwise `put(item, key)`;
a `keyPath` store always issues `put(item)`. -/
def putEventOf {Rec : Type} (store : CSVStore) (keyGen : Option (Rec → String))
    (keyPath : Rec → String) (r : Rec) : Option WriteEv :=
  match keyGen with
  | some f => if f r = "" then none else some (WriteEv.putRecord store (f r))
  | none => some (WriteEv.putRecord store (keyPath r))

/-- The writes issued by one `saveToObjectStore` call: one `clear()` of the
destination partition, then the batched `put`s in data order. -/
def saveToObjectStoreTrace {Rec : Type} (store : CSVStore)
    (keyGen : Option (Rec → String)) (keyPath : Rec → String) (data : List Rec) :
    List WriteEv :=
  WriteEv.clearStore store ::
    (List.range (totalBatchesFor data.length)).bind (fun b =>
      ((data.drop (b * batchSizeFor data.length)).take (batchSizeFor data.length)).filterMap
        (putEventOf store keyGen keyPath))

/-- The table writes of the twelve `storeDataSteps`, in source order; a step
with an empty data array is skipped (`continue`) and issues no write at
all. -/
def saveCSVBody (c : CSVDataCacheM) : List WriteEv :=
  (if c.inventories = [] then []
    else saveToObjectStoreTrace .inventories none inventoryKeyPath c.inventories) ++
  (if c.inventoryParts = [] then []
    else saveToObjectStoreTrace .inventoryParts (some generateInventoryPartKey)
      (fun _ => "") c.inventoryParts) ++
  (if c.inventoryMinifigs = [] then []
    else saveToObjectStoreTrace .inventoryMinifigs (some generateInventoryMinifigKey)
      (fun _ => "") c.inventoryMinifigs) ++
  (if c.inventorySets = [] then []
    else saveToObjectStoreTrace .inventorySets (some generateInventorySetKey)
      (fun _ => "") c.inventorySets) ++
  (if c.parts = [] then []
    else saveToObjectStoreTrace .parts none partKeyPath c.parts) ++
  (if c.colors = [] then []
    else saveToObjectStoreTrace .colors none colorKeyPath c.colors) ++
  (if c.partCategories = [] then []
    else saveToObjectStoreTrace .partCategories none partCategoryKeyPath c.partCategories) ++
  (if c.partRelationships = [] then []
    else saveToObjectStoreTrace .partRelationships (some generatePartRelationshipKey)
      (fun _ => "") c.partRelationships) ++
  (if c.elements = [] then []
    else saveToObjectStoreTrace .elements none elementKeyPath c.elements) ++
  (if c.minifigs = [] then []
    else saveToObjectStoreTrace .minifigs none minifigKeyPath c.minifigs) ++
  (if c.sets = [] then []
    else saveToObjectStoreTrace .sets none setKeyPath c.sets) ++
  (if c.themes = [] then []
    else saveToObjectStoreTrace .themes none themeKeyPath c.themes)

/-- The full write trace of a refresh cycle, in program order: population
flag first, the table writes, the metadata record, and last the population
flag removal. -/
def saveCSVDataCacheTrace (c : CSVDataCacheM) : List WriteEv :=
  WriteEv.setPopulationFlag ::
    (saveCSVBody c ++
      [WriteEv.putMetadata c.timestamp c.version, WriteEv.clearPopulationFlag])

/-- A write into one of the twelve table partitions (not the metadata
partition). -/
def isTableWrite : WriteEv → Bool
  | .clearStore _ => true
  | .putRecord _ _ => true
  | _ => false

/-! ### Claim C1 -/

theorem isTableWrite_of_mem_store_trace {Rec : Type} (store : CSVStore)
    (keyGen : Option (Rec → String)) (keyPath : Rec → String) (data : List Rec) :
    ∀ ev ∈ saveToObjectStoreTrace store keyGen keyPath data, isTableWrite ev = true := by
  intro ev hev
  unfold saveToObjectStoreTrace at hev
  rcases List.mem_cons.1 hev with rfl | hev
  · rfl
  · obtain ⟨b, _, hev⟩ := List.mem_bind.1 hev
    obtain ⟨r, _, hmap⟩ := List.mem_filterMap.1 hev
    cases keyGen with
    | some f =>
      simp only [putEventOf] at hmap
      by_cases hf : f r = ""
      · rw [if_pos hf] at hmap
        exact absurd hmap (by simp)
      · rw [if_neg hf] at hmap
        obtain rfl := Option.some.inj hmap
        rfl
    | none =>
      simp only [putEventOf] at hmap
      obtain rfl := Option.some.inj hmap
      rfl

theorem isTableWrite_of_mem_if {Rec : Type} (P : Prop) [Decidable P] (store : CSVStore)
    (keyGen : Option (Rec → String)) (keyPath : Rec → String) (data : List Rec) :
    ∀ ev ∈ (if P then ([] : List WriteEv)
      else saveToObjectStoreTrace store keyGen keyPath data),
      isTableWrite ev = true := by
  intro ev hev
  split at hev
  · exact absurd hev (List.not_mem_nil ev)
  · exact isTableWrite_of_mem_store_trace store keyGen keyPath data ev hev

theorem isTableWrite_of_mem_body (c : CSVDataCacheM) :
    ∀ ev ∈ saveCSVBody c, isTableWrite ev = true := by
  intro ev hev
  unfold saveCSVBody at hev
  simp only [List.mem_append] at hev
  rcases hev with ((((((((((h | h) | h) | h) | h) | h) | h) | h) | h) | h) | h) | h
  all_goals exact isTableWrite_of_mem_if _ _ _ _ _ ev h

/-- Position analysis for a list of the shape `e0 :: (L ++ [x, y])`. -/
theorem get_sandwich {β : Type} (e0 x y : β) (L : List β) (i : Nat) (v : β)
    (h : (e0 :: (L ++ [x, y])).get? i = some v) :
    (i = 0 ∧ v = e0) ∨ (∃ k, i = k + 1 ∧ k < L.length ∧ L.get? k = some v) ∨
      (i = L.length + 1 ∧ v = x) ∨ (i = L.length + 2 ∧ v = y) := by
  cases i with
  | zero =>
    exact Or.inl ⟨rfl, (Option.some.inj h).symm⟩
  | succ k =>
    rw [List.get?_cons_succ] at h
    by_cases hk : k < L.length
    · exact Or.inr (Or.inl ⟨k, rfl, hk, by rwa [List.get?_append hk] at h⟩)
    · have hk2 : L.length ≤ k := Nat.le_of_not_lt hk
      rw [List.get?_append_right hk2] at h
      cases hd : (k - L.length) with
      | zero =>
        rw [hd] at h
        exact Or.inr (Or.inr (Or.inl ⟨by omega, (Option.some.inj h).symm⟩))
      | succ d =>
        cases d with
        | zero =>
          rw [hd] at h
          exact Or.inr (Or.inr (Or.inr ⟨by omega, (Option.some.inj h).symm⟩))
        | succ d2 =>
          rw [hd] at h
          exact absurd h (by simp [List.get?])

/-- C1: in every refresh write cycle, the `csv_cache_info` metadata put is
issued only after every table-partition write (clear or record put) has been
issued: any table write in the trace precedes the metadata write in program
order. -/
theorem c1_metadata_write_last (c : CSVDataCacheM) (i j : Nat) (ev : WriteEv)
    (hi : (saveCSVDataCacheTrace c).get? i =
      some (WriteEv.putMetadata c.timestamp c.version))
    (hj : (saveCSVDataCacheTrace c).get? j = some ev)
    (hw : isTableWrite ev = true) : j < i := by
  unfold saveCSVDataCacheTrace at hi hj
  rcases get_sandwich _ _ _ _ _ _ hi with ⟨_, hv⟩ | ⟨k, hik, hk, hgk⟩ | ⟨hik, _⟩ | ⟨_, hv⟩
  · exact absurd hv (by simp)
  · have := isTableWrite_of_mem_body c _ (List.get?_mem hgk)
    simp [isTableWrite] at this
  · subst hik
    rcases get_sandwich _ _ _ _ _ _ hj with ⟨hj0, hv⟩ | ⟨k, hjk, hk, _⟩ | ⟨hjk, hv⟩ | ⟨hjk, hv⟩
    · subst hv; simp [isTableWrite] at hw
    · omega
    · subst hv; simp [isTableWrite] at hw
    · subst hv; simp [isTableWrite] at hw
  · exact absurd hv (by simp)

/-- A one-table dataset used to witness the cycle-level theorems. -/
def c1Cache : CSVDataCacheM :=
  { inventories := [], inventoryParts := [], inventoryMinifigs := [],
    inventorySets := [],
    parts := [{ part_num := "3001", name := "Brick 2 x 4", part_cat_id := 11 }],
    colors := [], partCategories := [], partRelationships := [], elements := [],
    minifigs := [], sets := [], themes := [], timestamp := 100, version := "2.0.0" }

/-- Witness for `c1_metadata_write_last`: on `c1Cache` the trace is
`[setPopulationFlag, clear csv_parts, put csv_parts, putMetadata,
clearPopulationFlag]`; the clear at index 1 precedes the metadata put at
index 3. -/
theorem c1_metadata_write_last_witness :
    (saveCSVDataCacheTrace c1Cache).get? 3 =
      some (WriteEv.putMetadata c1Cache.timestamp c1Cache.version) ∧
    (saveCSVDataCacheTrace c1Cache).get? 1 =
      some (WriteEv.clearStore CSVStore.parts) ∧
    isTableWrite (WriteEv.clearStore CSVStore.parts) = true ∧ (1 : Nat) < 3 :=
  ⟨by decide, by decide, rfl,
    c1_metadata_write_last c1Cache 3 1 (WriteEv.clearStore CSVStore.parts)
      (by decide) (by decide) rfl⟩

/-! ### Claim C2 -/

theorem mem_putKV {Rec : Type} (st : List (String × Rec)) (k : String) (v : Rec)
    (p : String × Rec) (h : p ∈ putKV st k v) : p ∈ st ∨ p = (k, v) := by
  unfold putKV at h
  split at h
  · obtain ⟨q, hq, hmap⟩ := List.mem_map.1 h
    by_cases hqk : q.1 = k
    · rw [if_pos hqk] at hmap
      exact Or.inr hmap.symm
    · rw [if_neg hqk] at hmap
      exact Or.inl (hmap ▸ hq)
  · rcases List.mem_append.1 h with h | h
    · exact Or.inl h
    · right
      simpa using h

theorem mem_putItem {Rec : Type} (keyGen : Option (Rec → String))
    (keyPath : Rec → String) (st : List (String × Rec)) (item : Rec)
    (p : String × Rec) (h : p ∈ putItem keyGen keyPath st item) :
    p ∈ st ∨ p.2 = item := by
  cases keyGen with
  | some f =>
    simp only [putItem] at h
    split at h
    · exact Or.inl h
    · rcases mem_putKV st (f item) item p h with h2 | h2
      · exact Or.inl h2
      · exact Or.inr (by rw [h2])
  | none =>
    simp only [putItem] at h
    rcases mem_putKV st (keyPath item) item p h with h2 | h2
    · exact Or.inl h2
    · exact Or.inr (by rw [h2])

theorem foldl_putItem_values {Rec : Type} (keyGen : Option (Rec → String))
    (keyPath : Rec → String) :
    ∀ (data : List Rec) (st : List (String × Rec)) (p : String × Rec),
      p ∈ data.foldl (putItem keyGen keyPath) st → p ∈ st ∨ p.2 ∈ data := by
  intro data
  induction data with
  | nil => exact fun st p h => Or.inl h
  | cons r data ih =>
    intro st p h
    rw [List.foldl_cons] at h
    rcases ih _ p h with h2 | h2
    · rcases mem_putItem keyGen keyPath st r p h2 with h3 | h3
      · exact Or.inl h3
      · exact Or.inr (h3 ▸ List.mem_cons_self _ _)
    · exact Or.inr (List.mem_cons_of_mem r h2)

/-- After `saveToObjectStore`, every record in the partition is one of the
newly written records: nothing of the prior partition contents survives. -/
theorem mem_saveToObjectStoreState {Rec : Type} (keyGen : Option (Rec → String))
    (keyPath : Rec → String) (data : List Rec) (p : String × Rec)
    (h : p ∈ saveToObjectStoreState keyGen keyPath data) : p.2 ∈ data := by
  rw [saveToObjectStoreState_eq_foldl] at h
  rcases foldl_putItem_values keyGen keyPath data [] p h with h | h
  · exact absurd h (List.not_mem_nil p)
  · exact h

/-- How many times a refresh trace clears a given partition. -/
def countClears (store : CSVStore) (tr : List WriteEv) : Nat :=
  tr.countP (fun ev => ev = WriteEv.clearStore store)

theorem countClears_store_trace {Rec : Type} (S store : CSVStore)
    (keyGen : Option (Rec → String)) (keyPath : Rec → String) (data : List Rec) :
    countClears S (saveToObjectStoreTrace store keyGen keyPath data) =
      if store = S then 1 else 0 := by
  unfold countClears saveToObjectStoreTrace
  rw [List.countP_cons]
  have htail : ((List.range (totalBatchesFor data.length)).bind (fun b =>
      ((data.drop (b * batchSizeFor data.length)).take
        (batchSizeFor data.length)).filterMap
        (putEventOf store keyGen keyPath))).countP
      (fun ev => ev = WriteEv.clearStore S) = 0 := by
    rw [List.countP_eq_zero]
    intro ev hev
    obtain ⟨b, _, hev⟩ := List.mem_bind.1 hev
    obtain ⟨r, _, hmap⟩ := List.mem_filterMap.1 hev
    cases keyGen with
    | some f =>
      simp only [putEventOf] at hmap
      by_cases hf : f r = ""
      · rw [if_pos hf] at hmap
        exact absurd hmap (by simp)
      · rw [if_neg hf] at hmap
        obtain rfl := Option.some.inj hmap
        simp
    | none =>
      simp only [putEventOf] at hmap
      obtain rfl := Option.some.inj hmap
      simp
  rw [htail]
  by_cases hs : store = S <;> simp [hs]

theorem countClears_if_nil (S : CSVStore) (P : Prop) [Decidable P] (T : List WriteEv) :
    countClears S (if P then ([] : List WriteEv) else T) =
      if P then 0 else countClears S T := by
  by_cases h : P <;> simp [h, countClears]

theorem countClears_append (S : CSVStore) (a b : List WriteEv) :
    countClears S (a ++ b) = countClears S a + countClears S b :=
  List.countP_append _ _ _

/-- One `storeDataSteps` step: an empty contribution leaves the partition
untouched, a nonempty one replaces it with records of the new dataset
only. -/
theorem saveStep_cases {Rec : Type} [DecidableEq Rec] (old : List (String × Rec))
    (keyGen : Option (Rec → String)) (keyPath : Rec → String) (data : List Rec) :
    (data = [] →
      (if data = [] then old else saveToObjectStoreState keyGen keyPath data) = old) ∧
    (∀ p ∈ (if data = [] then old else saveToObjectStoreState keyGen keyPath data),
      data ≠ [] → p.2 ∈ data) := by
  constructor
  · intro h
    rw [if_pos h]
  · intro p hp hne
    rw [if_neg hne] at hp
    exact mem_saveToObjectStoreState keyGen keyPath data p hp

/-- Clear counts of a full refresh trace, per partition. -/
theorem countClears_trace (S : CSVStore) (c : CSVDataCacheM) :
    countClears S (saveCSVDataCacheTrace c) =
      (if c.inventories = [] then 0 else if CSVStore.inventories = S then 1 else 0) +
      (if c.inventoryParts = [] then 0 else if CSVStore.inventoryParts = S then 1 else 0) +
      (if c.inventoryMinifigs = [] then 0 else if CSVStore.inventoryMinifigs = S then 1 else 0) +
      (if c.inventorySets = [] then 0 else if CSVStore.inventorySets = S then 1 else 0) +
      (if c.parts = [] then 0 else if CSVStore.parts = S then 1 else 0) +
      (if c.colors = [] then 0 else if CSVStore.colors = S then 1 else 0) +
      (if c.partCategories = [] then 0 else if CSVStore.partCategories = S then 1 else 0) +
      (if c.partRelationships = [] then 0 else if CSVStore.partRelationships = S then 1 else 0) +
      (if c.elements = [] then 0 else if CSVStore.elements = S then 1 else 0) +
      (if c.minifigs = [] then 0 else if CSVStore.minifigs = S then 1 else 0) +
      (if c.sets = [] then 0 else if CSVStore.sets = S then 1 else 0) +
      (if c.themes = [] then 0 else if CSVStore.themes = S then 1 else 0) := by
  unfold saveCSVDataCacheTrace saveCSVBody
  rw [show ∀ tr : List WriteEv, WriteEv.setPopulationFlag :: tr = [WriteEv.setPopulationFlag] ++ tr from fun _ => rfl]
  simp only [countClears_append, countClears_if_nil, countClears_store_trace]
  have h1 : countClears S [WriteEv.setPopulationFlag] = 0 := by
    cases S <;> rfl
  have h2 : countClears S [WriteEv.putMetadata c.timestamp c.version,
      WriteEv.clearPopulationFlag] = 0 := by
    cases S <;> rfl
  rw [h1, h2]
  omega

/-- Claim C2 (amended): in a refresh cycle, each table partition whose new
dataset contribution is nonempty is cleared exactly once, before any of its
record puts, and afterwards holds only records of the new dataset; a table
whose contribution is empty is skipped entirely — it is not cleared and
keeps its previous contents, so an empty contribution can leave an earlier
generation's records in place (see the counterexample). -/
theorem c2_amended :
    (∀ (Rec : Type) (store : CSVStore) (keyGen : Option (Rec → String))
        (keyPath : Rec → String) (data : List Rec),
      (saveToObjectStoreTrace store keyGen keyPath data).head? =
        some (WriteEv.clearStore store) ∧
      ∀ ev ∈ (saveToObjectStoreTrace store keyGen keyPath data).tail,
        ∃ k, ev = WriteEv.putRecord store k) ∧
    (∀ c : CSVDataCacheM,
      countClears CSVStore.inventories (saveCSVDataCacheTrace c) =
        (if c.inventories = [] then 0 else 1) ∧
      countClears CSVStore.inventoryParts (saveCSVDataCacheTrace c) =
        (if c.inventoryParts = [] then 0 else 1) ∧
      countClears CSVStore.inventoryMinifigs (saveCSVDataCacheTrace c) =
        (if c.inventoryMinifigs = [] then 0 else 1) ∧
      countClears CSVStore.inventorySets (saveCSVDataCacheTrace c) =
        (if c.inventorySets = [] then 0 else 1) ∧
      countClears CSVStore.parts (saveCSVDataCacheTrace c) =
        (if c.parts = [] then 0 else 1) ∧
      countClears CSVStore.colors (saveCSVDataCacheTrace c) =
        (if c.colors = [] then 0 else 1) ∧
      countClears CSVStore.partCategories (saveCSVDataCacheTrace c) =
        (if c.partCategories = [] then 0 else 1) ∧
      countClears CSVStore.partRelationships (saveCSVDataCacheTrace c) =
        (if c.partRelationships = [] then 0 else 1) ∧
      countClears CSVStore.elements (saveCSVDataCacheTrace c) =
        (if c.elements = [] then 0 else 1) ∧
      countClears CSVStore.minifigs (saveCSVDataCacheTrace c) =
        (if c.minifigs = [] then 0 else 1) ∧
      countClears CSVStore.sets (saveCSVDataCacheTrace c) =
        (if c.sets = [] then 0 else 1) ∧
      countClears CSVStore.themes (saveCSVDataCacheTrace c) =
        (if c.themes = [] then 0 else 1)) ∧
    (∀ (α : Type) (now : Int) (db : BrickDB α) (c : CSVDataCacheM),
      ((c.inventories = [] → (saveCSVDataCacheState now db c).csvInventories = db.csvInventories) ∧
        ∀ p ∈ (saveCSVDataCacheState now db c).csvInventories, c.inventories ≠ [] → p.2 ∈ c.inventories) ∧
      ((c.inventoryParts = [] → (saveCSVDataCacheState now db c).csvInventoryParts = db.csvInventoryParts) ∧
        ∀ p ∈ (saveCSVDataCacheState now db c).csvInventoryParts, c.inventoryParts ≠ [] → p.2 ∈ c.inventoryParts) ∧
      ((c.inventoryMinifigs = [] → (saveCSVDataCacheState now db c).csvInventoryMinifigs = db.csvInventoryMinifigs) ∧
        ∀ p ∈ (saveCSVDataCacheState now db c).csvInventoryMinifigs, c.inventoryMinifigs ≠ [] → p.2 ∈ c.inventoryMinifigs) ∧
      ((c.inventorySets = [] → (saveCSVDataCacheState now db c).csvInventorySets = db.csvInventorySets) ∧
        ∀ p ∈ (saveCSVDataCacheState now db c).csvInventorySets, c.inventorySets ≠ [] → p.2 ∈ c.inventorySets) ∧
      ((c.parts = [] → (saveCSVDataCacheState now db c).csvParts = db.csvParts) ∧
        ∀ p ∈ (saveCSVDataCacheState now db c).csvParts, c.parts ≠ [] → p.2 ∈ c.parts) ∧
      ((c.colors = [] → (saveCSVDataCacheState now db c).csvColors = db.csvColors) ∧
        ∀ p ∈ (saveCSVDataCacheState now db c).csvColors, c.colors ≠ [] → p.2 ∈ c.colors) ∧
      ((c.partCategories = [] → (saveCSVDataCacheState now db c).csvPartCategories = db.csvPartCategories) ∧
        ∀ p ∈ (saveCSVDataCacheState now db c).csvPartCategories, c.partCategories ≠ [] → p.2 ∈ c.partCategories) ∧
      ((c.partRelationships = [] → (saveCSVDataCacheState now db c).csvPartRelationships = db.csvPartRelationships) ∧
        ∀ p ∈ (saveCSVDataCacheState now db c).csvPartRelationships, c.partRelationships ≠ [] → p.2 ∈ c.partRelationships) ∧
      ((c.elements = [] → (saveCSVDataCacheState now db c).csvElements = db.csvElements) ∧
        ∀ p ∈ (saveCSVDataCacheState now db c).csvElements, c.elements ≠ [] → p.2 ∈ c.elements) ∧
      ((c.minifigs = [] → (saveCSVDataCacheState now db c).csvMinifigs = db.csvMinifigs) ∧
        ∀ p ∈ (saveCSVDataCacheState now db c).csvMinifigs, c.minifigs ≠ [] → p.2 ∈ c.minifigs) ∧
      ((c.sets = [] → (saveCSVDataCacheState now db c).csvSets = db.csvSets) ∧
        ∀ p ∈ (saveCSVDataCacheState now db c).csvSets, c.sets ≠ [] → p.2 ∈ c.sets) ∧
      ((c.themes = [] → (saveCSVDataCacheState now db c).csvThemes = db.csvThemes) ∧
        ∀ p ∈ (saveCSVDataCacheState now db c).csvThemes, c.themes ≠ [] → p.2 ∈ c.themes)) := by
  refine ⟨?_, ?_, ?_⟩
  · intro Rec store keyGen keyPath data
    constructor
    · rfl
    · intro ev hev
      simp only [saveToObjectStoreTrace, List.tail_cons] at hev
      obtain ⟨b, _, hev⟩ := List.mem_bind.1 hev
      obtain ⟨r, _, hmap⟩ := List.mem_filterMap.1 hev
      cases keyGen with
      | some f =>
        simp only [putEventOf] at hmap
        by_cases hf : f r = ""
        · rw [if_pos hf] at hmap
          exact absurd hmap (by simp)
        · rw [if_neg hf] at hmap
          exact ⟨f r, (Option.some.inj hmap).symm⟩
      | none =>
        simp only [putEventOf] at hmap
        exact ⟨keyPath r, (Option.some.inj hmap).symm⟩
  · intro c
    refine ⟨?_, ?_, ?_, ?_, ?_, ?_, ?_, ?_, ?_, ?_, ?_, ?_⟩
    all_goals rw [countClears_trace]
    all_goals simp
  · intro α now db c
    refine ⟨?_, ?_, ?_, ?_, ?_, ?_, ?_, ?_, ?_, ?_, ?_, ?_⟩
    · exact saveStep_cases db.csvInventories none inventoryKeyPath c.inventories
    · exact saveStep_cases db.csvInventoryParts (some generateInventoryPartKey) (fun _ => "") c.inventoryParts
    · exact saveStep_cases db.csvInventoryMinifigs (some generateInventoryMinifigKey) (fun _ => "") c.inventoryMinifigs
    · exact saveStep_cases db.csvInventorySets (some generateInventorySetKey) (fun _ => "") c.inventorySets
    · exact saveStep_cases db.csvParts none partKeyPath c.parts
    · exact saveStep_cases db.csvColors none colorKeyPath c.colors
    · exact saveStep_cases db.csvPartCategories none partCategoryKeyPath c.partCategories
    · exact saveStep_cases db.csvPartRelationships (some generatePartRelationshipKey) (fun _ => "") c.partRelationships
    · exact saveStep_cases db.csvElements none elementKeyPath c.elements
    · exact saveStep_cases db.csvMinifigs none minifigKeyPath c.minifigs
    · exact saveStep_cases db.csvSets none setKeyPath c.sets
    · exact saveStep_cases db.csvThemes none themeKeyPath c.themes
def c2OldPart : Part := { part_num := "9999", name := "Retired brick", part_cat_id := 1 }

/-- A database still holding one record of an earlier generation in
`csv_parts`. -/
def c2Db : BrickDB Unit :=
  { csvInventories := [], csvInventoryParts := [], csvInventoryMinifigs := [],
    csvInventorySets := [], csvParts := [("9999", c2OldPart)], csvColors := [],
    csvPartCategories := [], csvPartRelationships := [], csvElements := [],
    csvMinifigs := [], csvSets := [], csvThemes := [], csvMetadata := [],
    appState := [] }

/-- A new-generation dataset whose `parts` contribution is empty. -/
def c2Cache : CSVDataCacheM :=
  { inventories := [], inventoryParts := [], inventoryMinifigs := [],
    inventorySets := [], parts := [],
    colors := [{ id := 0, name := "Black", rgb := "05131D", is_trans := false }],
    partCategories := [], partRelationships := [], elements := [], minifigs := [],
    sets := [], themes := [], timestamp := 200, version := "2.0.0" }

/-- Claim C2 as stated is false: a table whose contribution in the new
dataset is empty is skipped (`continue` before `saveToObjectStore`), so its
partition is never cleared — `csv_parts` keeps the earlier generation's
record while the cycle still writes the new generation's metadata, mixing
generations. -/
theorem c2_counterexample :
    c2Cache.parts = [] ∧
    countClears CSVStore.parts (saveCSVDataCacheTrace c2Cache) = 0 ∧
    (saveCSVDataCacheState 0 c2Db c2Cache).csvParts = [("9999", c2OldPart)] ∧
    ("csv_cache_info", MetaRec.cacheInfo c2Cache.timestamp c2Cache.version) ∈
      (saveCSVDataCacheState 0 c2Db c2Cache).csvMetadata :=
  ⟨rfl, by decide, by decide, by decide⟩

/-- Witness for `c2_amended` at concrete inputs. -/
theorem c2_amended_witness :
    (saveToObjectStoreTrace CSVStore.parts none partKeyPath c1Cache.parts).head? =
      some (WriteEv.clearStore CSVStore.parts) ∧
    countClears CSVStore.parts (saveCSVDataCacheTrace c1Cache) =
      (if c1Cache.parts = [] then 0 else 1) ∧
    (saveCSVDataCacheState 0 c2Db c1Cache).csvInventories = c2Db.csvInventories ∧
    ({ part_num := "3001", name := "Brick 2 x 4", part_cat_id := 11 } : Part) ∈
      c1Cache.parts := by
  refine ⟨?_, ?_, ?_, ?_⟩
  · exact (c2_amended.1 Part CSVStore.parts none partKeyPath c1Cache.parts).1
  · exact (c2_amended.2.1 c1Cache).2.2.2.2.1
  · exact ((c2_amended.2.2 Unit 0 c2Db c1Cache).1).1 rfl
  · exact ((c2_amended.2.2 Unit 0 c2Db c1Cache).2.2.2.2.1).2
      ("3001", { part_num := "3001", name := "Brick 2 x 4", part_cat_id := 11 })
      (by decide) (by decide)

/-! ## Clearing the CSV cache (`IndexedDBService.clearCSVCache`) and
claim C10 -/

/-- Embeds `clearCSVCache`: every store listed in `CSV_STORES` — the twelve
table partitions and the metadata partition — is cleared, then the
population flag is deleted (it is already gone with the cleared metadata
store).  The session-state reset that follows touches no store.  The
user-data store `appState` is not among the cleared stores. -/
def clearCSVCacheState {α : Type} (db : BrickDB α) : BrickDB α :=
  { db with
    csvInventories := [], csvInventoryParts := [], csvInventoryMinifigs := [],
    csvInventorySets := [], csvParts := [], csvColors := [],
    csvPartCategories := [], csvPartRelationships := [], csvElements := [],
    csvMinifigs := [], csvSets := [], csvThemes := [],
    csvMetadata := deleteKV ([] : List (String × MetaRec)) "population_in_progress" }

/-- Embeds the storage effect of `DataService.refreshCSVData` on the happy
path: `clearCSVCache`, then (after the in-memory resets, which touch no
store) `loadData` finds the cache invalid, re-parses the CSV sources and
re-populates the store through `saveCSVDataCache`. -/
def refreshCSVDataState {α : Type} (now : Int) (db : BrickDB α)
    (fresh : CSVDataCacheM) : BrickDB α :=
  saveCSVDataCacheState now (clearCSVCacheState db) fresh

/-- C10: clearing the CSV cache and the full refresh cycle rewrite only the
catalog partitions; the separate user-data store `appState` (the
`userInventories` app state) is left exactly as it was. -/
theorem c10_user_data_untouched :
    (∀ (α : Type) (db : BrickDB α), (clearCSVCacheState db).appState = db.appState) ∧
    (∀ (α : Type) (now : Int) (db : BrickDB α) (fresh : CSVDataCacheM),
      (refreshCSVDataState now db fresh).appState = db.appState) :=
  ⟨fun _ _ => rfl, fun _ _ _ _ => rfl⟩

/-! ## Storage circuit breaker (`IndexedDBService` session state)

The breaker counts consecutive recorded initialization failures
(`failureCount`), disables the structured store for the session at
`MAX_FAILURES = 3`, and persists the disable flag in session storage.
The `MIN_RETRY_INTERVAL` cool-down throw and the shared in-flight
initialization promise leave the breaker state untouched and are therefore
not modelled as steps. -/

/-- The session-storage items the service uses: `indexeddb_disabled`,
`indexeddb_disabled_reason` and `indexeddb_keep_disabled`. -/
structure SessionStorage where
  disabledFlag : Bool
  reasonItem : Option String
  keepDisabled : Bool
deriving DecidableEq, Repr

/-- Circuit-breaker state of an `IndexedDBService` instance together with
the ambient session storage. -/
structure BreakerState where
  storage : SessionStorage
  failureCount : Nat
  initializationFailed : Bool
  indexedDBDisabled : Bool
  disabledReason : String
deriving DecidableEq, Repr

def MAX_FAILURES : Nat := 3

/-- Embeds `checkSessionDisableStatus`: a present session flag (re)disables
the instance; an absent flag changes nothing. -/
def checkSessionDisableStatus (s : BreakerState) : BreakerState :=
  if s.storage.disabledFlag then
    { s with
      indexedDBDisabled := true,
      disabledReason := s.storage.reasonItem.getD "Previous session failure" }
  else s

/-- Embeds `disableIndexedDBForSession` (the `initializationPromise` / `db`
resets concern the connection, not the breaker). -/
def disableIndexedDBForSession (s : BreakerState) (reason : String) : BreakerState :=
  { s with
    indexedDBDisabled := true,
    disabledReason := reason,
    storage := { s.storage with disabledFlag := true, reasonItem := some reason } }

/-- Embeds the constructor: unless `indexeddb_keep_disabled` is present, the
session disable items are removed, and then `checkSessionDisableStatus`
runs on a freshly initialized instance. -/
def constructService (ss : SessionStorage) : BreakerState :=
  let ss := if ss.keepDisabled then ss
    else { ss with disabledFlag := false, reasonItem := none }
  checkSessionDisableStatus
    { storage := ss, failureCount := 0, initializationFailed := false,
      indexedDBDisabled := false, disabledReason := "" }

/-- Embeds one `ensureDB` call that reaches an actual initialization
attempt, with outcome `succeeds`: re-check the session disable status and
throw when disabled (state unchanged), reset the failure counter on
success, and on failure increment it and disable the store for the session
at the `MAX_FAILURES`-th consecutive recorded failure. -/
def ensureDBAttempt (s : BreakerState) (succeeds : Bool) : BreakerState :=
  let s := checkSessionDisableStatus s
  if s.indexedDBDisabled then s
  else if succeeds then { s with initializationFailed := false, failureCount := 0 }
  else
    let s := { s with initializationFailed := true, failureCount := s.failureCount + 1 }
    if s.failureCount ≥ MAX_FAILURES then
      disableIndexedDBForSession s
        ("Database initialization failed " ++ toString s.failureCount ++ " times")
    else s

/-- Embeds `resetSessionState` (the user-triggered manual reset). -/
def resetSessionState (s : BreakerState) : BreakerState :=
  { s with
    storage := { s.storage with disabledFlag := false, reasonItem := none },
    indexedDBDisabled := false, disabledReason := "", failureCount := 0,
    initializationFailed := false }

/-- Embeds `isDisabledForSession`. -/
def isDisabledForSession (s : BreakerState) : Bool :=
  s.indexedDBDisabled

/-- A fresh enabled session: service constructed over empty session
storage. -/
def freshSession : BreakerState :=
  constructService { disabledFlag := false, reasonItem := none, keepDisabled := false }

/-- A recorded initialization failure. -/
def recordFailure (s : BreakerState) : BreakerState :=
  ensureDBAttempt s false

/-! ### Claims C3 and C4 -/

theorem check_failureCount (s : BreakerState) :
    (checkSessionDisableStatus s).failureCount = s.failureCount := by
  unfold checkSessionDisableStatus
  split <;> rfl

theorem check_storage (s : BreakerState) :
    (checkSessionDisableStatus s).storage = s.storage := by
  unfold checkSessionDisableStatus
  split <;> rfl

theorem check_disabled (s : BreakerState) :
    (checkSessionDisableStatus s).indexedDBDisabled =
      (s.indexedDBDisabled || s.storage.disabledFlag) := by
  unfold checkSessionDisableStatus
  split
  · next h => simp [h]
  · next h => simp [Bool.eq_false_iff.2 h]

/-- Invariant of repeated recorded failures from a fresh session: the
counter saturates at 3, and the disabled flag (in the instance and in
session storage) appears exactly at the third failure. -/
theorem recordFailure_iterate_invariant (n : Nat) :
    (recordFailure^[n] freshSession).failureCount = min n 3 ∧
    (recordFailure^[n] freshSession).indexedDBDisabled = decide (3 ≤ n) ∧
    (recordFailure^[n] freshSession).storage.disabledFlag = decide (3 ≤ n) := by
  induction n with
  | zero => refine ⟨by decide, by decide, by decide⟩
  | succ n ih =>
    obtain ⟨h1, h2, h3⟩ := ih
    rw [Function.iterate_succ_apply']
    set s := recordFailure^[n] freshSession with hs
    clear hs
    unfold recordFailure ensureDBAttempt
    by_cases hn : 3 ≤ n
    · have hd : (checkSessionDisableStatus s).indexedDBDisabled = true := by
        rw [check_disabled, h2, h3]
        simp [hn]
      rw [if_pos hd]
      refine ⟨?_, ?_, ?_⟩
      · rw [check_failureCount, h1]; omega
      · rw [hd]; simp [Nat.le_succ_of_le hn]
      · rw [check_storage, h3]; simp [hn, Nat.le_succ_of_le hn]
    · have hd : (checkSessionDisableStatus s).indexedDBDisabled = false := by
        rw [check_disabled, h2, h3]
        simp [hn]
      have hc : checkSessionDisableStatus s = s := by
        unfold checkSessionDisableStatus
        rw [h3]
        simp [hn]
      rw [if_neg (by rw [hd]; simp)]
      rw [hc]
      simp only [Bool.false_eq_true, if_false]
      rw [h1]
      have hmin : min n 3 = n := by omega
      rw [hmin]
      by_cases hn1 : n + 1 ≥ MAX_FAILURES
      · rw [if_pos hn1]
        unfold MAX_FAILURES at hn1
        refine ⟨?_, ?_, ?_⟩
        · show n + 1 = min (n + 1) 3; omega
        · show true = decide (3 ≤ n + 1); simp [hn1]
        · show true = decide (3 ≤ n + 1); simp [hn1]
      · rw [if_neg hn1]
        unfold MAX_FAILURES at hn1
        refine ⟨?_, ?_, ?_⟩
        · show n + 1 = min (n + 1) 3; omega
        · show s.indexedDBDisabled = decide (3 ≤ n + 1)
          rw [h2]; simp; omega
        · show s.storage.disabledFlag = decide (3 ≤ n + 1)
          rw [h3]; simp; omega


/-- C3: starting from a fresh enabled session with failure counter zero,
the store becomes disabled exactly after 3 consecutive recorded
initialization failures and remains disabled thereafter; a successful
operation resets the failure counter to zero without re-enabling (an
already-disabled store stays disabled under any attempt, which throws
first); and after a user-triggered `resetSessionState`, a single subsequent
failure does not re-disable the store. -/
theorem c3_circuit_breaker :
    (∀ n : Nat, isDisabledForSession (recordFailure^[n] freshSession) = decide (3 ≤ n)) ∧
    (∀ (s : BreakerState) (b : Bool), s.indexedDBDisabled = true →
      isDisabledForSession (ensureDBAttempt s b) = true) ∧
    (∀ s : BreakerState, s.indexedDBDisabled = false → s.storage.disabledFlag = false →
      (ensureDBAttempt s true).failureCount = 0 ∧
      isDisabledForSession (ensureDBAttempt s true) = false) ∧
    (∀ s : BreakerState,
      isDisabledForSession (recordFailure (resetSessionState s)) = false) := by
  refine ⟨?_, ?_, ?_, ?_⟩
  · exact fun n => (recordFailure_iterate_invariant n).2.1
  · intro s b hdis
    have hd : (checkSessionDisableStatus s).indexedDBDisabled = true := by
      rw [check_disabled, hdis]
      rfl
    unfold isDisabledForSession ensureDBAttempt
    rw [if_pos hd]
    exact hd
  · intro s hdis hflag
    have hc : checkSessionDisableStatus s = s := by
      unfold checkSessionDisableStatus
      rw [hflag]
      simp
    unfold isDisabledForSession ensureDBAttempt
    rw [hc]
    simp [hdis]
  · intro s
    have hc : checkSessionDisableStatus (resetSessionState s) = resetSessionState s := by
      unfold checkSessionDisableStatus resetSessionState
      simp
    unfold isDisabledForSession recordFailure ensureDBAttempt
    rw [hc]
    simp [resetSessionState, MAX_FAILURES]

/-- Witness for `c3_circuit_breaker` at concrete inputs. -/
theorem c3_circuit_breaker_witness :
    isDisabledForSession (recordFailure^[3] freshSession) = decide (3 ≤ 3) ∧
    isDisabledForSession
      (ensureDBAttempt (recordFailure^[3] freshSession) true) = true ∧
    ((ensureDBAttempt freshSession true).failureCount = 0 ∧
      isDisabledForSession (ensureDBAttempt freshSession true) = false) ∧
    isDisabledForSession (recordFailure (resetSessionState freshSession)) = false :=
  ⟨c3_circuit_breaker.1 3,
   c3_circuit_breaker.2.1 (recordFailure^[3] freshSession) true (by decide),
   c3_circuit_breaker.2.2.1 freshSession (by decide) (by decide),
   c3_circuit_breaker.2.2.2 freshSession⟩

/-- Claim C4 as stated is false: after three recorded failures the disable
flag sits in session storage, but re-constructing the service over that very
session storage clears the flag — nothing in the repository ever sets
`indexeddb_keep_disabled` — so `isDisabledForSession()` reports `false` on
the next page load and the failing backend is retried. -/
theorem c4_counterexample :
    (recordFailure^[3] freshSession).storage.disabledFlag = true ∧
    (recordFailure^[3] freshSession).storage.keepDisabled = false ∧
    isDisabledForSession
      (constructService (recordFailure^[3] freshSession).storage) = false :=
  ⟨by decide, by decide, by decide⟩

/-- Claim C4 (amended): disabling writes the flag and its reason to
session-scoped storage, but the constructor removes both on every service
re-construction unless a separate `indexeddb_keep_disabled` item is present
(no code in the repository sets it), so after a reload within the same
session `isDisabledForSession()` reports `false`; only with the keep item
present does the persisted flag survive re-construction. -/
theorem c4_amended :
    (∀ (s : BreakerState) (reason : String),
      (disableIndexedDBForSession s reason).storage.disabledFlag = true ∧
      (disableIndexedDBForSession s reason).storage.reasonItem = some reason ∧
      isDisabledForSession (disableIndexedDBForSession s reason) = true) ∧
    (∀ ss : SessionStorage, ss.keepDisabled = false →
      isDisabledForSession (constructService ss) = false) ∧
    (∀ ss : SessionStorage, ss.keepDisabled = true → ss.disabledFlag = true →
      isDisabledForSession (constructService ss) = true) := by
  refine ⟨fun s reason => ⟨rfl, rfl, rfl⟩, ?_, ?_⟩
  · intro ss hkeep
    unfold constructService isDisabledForSession checkSessionDisableStatus
    rw [hkeep]
    simp
  · intro ss hkeep hflag
    unfold constructService isDisabledForSession checkSessionDisableStatus
    rw [hkeep]
    simp [hflag]

/-- Witness for `c4_amended` at concrete inputs. -/
theorem c4_amended_witness :
    isDisabledForSession (constructService
      { disabledFlag := true, reasonItem := some "broken", keepDisabled := false }) = false ∧
    isDisabledForSession (constructService
      { disabledFlag := true, reasonItem := some "broken", keepDisabled := true }) = true :=
  ⟨c4_amended.2.1 _ rfl, c4_amended.2.2 _ rfl rfl⟩


/-! ## Cache validation (`IndexedDBService.performCacheValidation`,
`isPopulationInProgress`) -/

def THIRTY_MINUTES_MS : Int := 30 * 60 * 1000

/-- The 12-hour freshness threshold in milliseconds.  The source compares
`ageMs / (1000*60*60) > 12` on IEEE doubles; for every integer `ageMs` of
magnitude below `2^53` the quotient differs from 12 by at least about
`2.7e-10` whenever `ageMs ≠ 43200000`, far above rounding error, so the
float comparison holds exactly when `ageMs > 43200000` and the embedding
uses the equivalent integer comparison. -/
def CSV_CACHE_EXPIRY_MS : Int := 12 * 60 * 60 * 1000

/-- What cache validation reads from the database: the clock, whether the
metadata store exists, the `population_in_progress` record
`(startedAtTimestamp, inProgress)`, the `csv_cache_info` record
`(writtenAtTimestamp, formatVersion)`, and the row counts of the four
load-bearing stores. -/
structure ValidationEnv where
  now : Int
  metadataStoreExists : Bool
  popFlag : Option (Int × Bool)
  cacheInfo : Option (Int × String)
  countParts : Nat
  countColors : Nat
  countInventories : Nat
  countInventoryParts : Nat

/-- Embeds `isPopulationInProgress`: the busy verdict together with the
population-flag record after the call — a flag older than 30 minutes is
considered abandoned, cleared (`clearPopulationFlag`) and ignored.  A record
with `inProgress` false, a missing record, or a missing metadata store give
`false` without clearing. -/
def isPopulationInProgressM (env : ValidationEnv) : Bool × Option (Int × Bool) :=
  if ¬env.metadataStoreExists then (false, env.popFlag)
  else
    match env.popFlag with
    | some (ts, true) =>
      if env.now - ts > THIRTY_MINUTES_MS then (false, none)
      else (true, some (ts, true))
    | other => (false, other)

/-- Embeds `performCacheValidation`, short-circuiting in source order:
population marker, metadata store existence, metadata record presence,
freshness, and the four `quickStoreCountCheck` row-count thresholds. -/
def performCacheValidationM (env : ValidationEnv) : Bool :=
  if (isPopulationInProgressM env).1 then false
  else if ¬env.metadataStoreExists then false
  else
    match env.cacheInfo with
    | none => false
    | some (ts, _) =>
      if env.now - ts > CSV_CACHE_EXPIRY_MS then false
      else
        decide (env.countParts ≥ 50000) && decide (env.countColors ≥ 200) &&
          decide (env.countInventories ≥ 30000) &&
          decide (env.countInventoryParts ≥ 100000)

/-! ### Claim C6 -/

/-- C6: with the other checks passing (metadata store present, no busy
marker, row counts at their thresholds), a cache written exactly
`12h + 1ms` ago is invalid and one written exactly `12h - 1ms` ago is
valid: the 12-hour threshold is judged with exact millisecond
arithmetic. -/
theorem c6_freshness_boundary (now : Int) (version : String)
    (cp cc ci cip : Nat) (hp : cp ≥ 50000) (hc : cc ≥ 200) (hi : ci ≥ 30000)
    (hip : cip ≥ 100000) :
    performCacheValidationM
      { now := now, metadataStoreExists := true, popFlag := none,
        cacheInfo := some (now - CSV_CACHE_EXPIRY_MS - 1, version),
        countParts := cp, countColors := cc, countInventories := ci,
        countInventoryParts := cip } = false ∧
    performCacheValidationM
      { now := now, metadataStoreExists := true, popFlag := none,
        cacheInfo := some (now - CSV_CACHE_EXPIRY_MS + 1, version),
        countParts := cp, countColors := cc, countInventories := ci,
        countInventoryParts := cip } = true := by
  constructor
  · unfold performCacheValidationM isPopulationInProgressM
    have hage : now - (now - CSV_CACHE_EXPIRY_MS - 1) > CSV_CACHE_EXPIRY_MS := by
      unfold CSV_CACHE_EXPIRY_MS
      omega
    simp [hage]
  · unfold performCacheValidationM isPopulationInProgressM
    have hage : ¬(now - (now - CSV_CACHE_EXPIRY_MS + 1) > CSV_CACHE_EXPIRY_MS) := by
      unfold CSV_CACHE_EXPIRY_MS
      omega
    simp [hage, hp, hc, hi, hip]

/-- Witness for `c6_freshness_boundary` at concrete inputs. -/
theorem c6_freshness_boundary_witness :
    performCacheValidationM
      { now := 100000000, metadataStoreExists := true, popFlag := none,
        cacheInfo := some (100000000 - CSV_CACHE_EXPIRY_MS - 1, "2.0.0"),
        countParts := 50000, countColors := 200, countInventories := 30000,
        countInventoryParts := 100000 } = false ∧
    performCacheValidationM
      { now := 100000000, metadataStoreExists := true, popFlag := none,
        cacheInfo := some (100000000 - CSV_CACHE_EXPIRY_MS + 1, "2.0.0"),
        countParts := 50000, countColors := 200, countInventories := 30000,
        countInventoryParts := 100000 } = true :=
  c6_freshness_boundary 100000000 "2.0.0" 50000 200 30000 100000
    (by decide) (by decide) (by decide) (by decide)

/-! ### Claim C7 -/

/-- C7: a population marker with `inProgress` set whose start timestamp is
younger than 30 minutes makes validation report the cache unusable; a
marker older than 30 minutes is treated as abandoned — reported not busy
and cleared — and validation proceeds exactly as if the marker were
absent. -/
theorem isPopulationInProgressM_eq (env : ValidationEnv) (ts : Int)
    (hstore : env.metadataStoreExists = true)
    (hflag : env.popFlag = some (ts, true)) :
    isPopulationInProgressM env =
      (if env.now - ts > THIRTY_MINUTES_MS then (false, none)
        else (true, some (ts, true))) := by
  unfold isPopulationInProgressM
  rw [hstore, hflag]
  simp

theorem c7_busy_marker (env : ValidationEnv) (ts : Int)
    (hstore : env.metadataStoreExists = true)
    (hflag : env.popFlag = some (ts, true)) :
    (env.now - ts < THIRTY_MINUTES_MS →
      (isPopulationInProgressM env).1 = true ∧ performCacheValidationM env = false) ∧
    (env.now - ts > THIRTY_MINUTES_MS →
      isPopulationInProgressM env = (false, none) ∧
      performCacheValidationM env =
        performCacheValidationM { env with popFlag := none }) := by
  constructor
  · intro hyoung
    have hbusy : (isPopulationInProgressM env).1 = true := by
      rw [isPopulationInProgressM_eq env ts hstore hflag, if_neg (by omega)]
    refine ⟨hbusy, ?_⟩
    unfold performCacheValidationM
    rw [hbusy]
    rfl
  · intro hold
    have hstale : isPopulationInProgressM env = (false, none) := by
      rw [isPopulationInProgressM_eq env ts hstore hflag, if_pos hold]
    refine ⟨hstale, ?_⟩
    have hnone : (isPopulationInProgressM { env with popFlag := none }).1 = false := by
      unfold isPopulationInProgressM
      simp [hstore]
    unfold performCacheValidationM
    rw [hstale, hnone]

/-- Witness for `c7_busy_marker` at concrete inputs. -/
theorem c7_busy_marker_witness :
    ((isPopulationInProgressM
        { now := 10000000, metadataStoreExists := true,
          popFlag := some (9000000, true), cacheInfo := none, countParts := 0,
          countColors := 0, countInventories := 0, countInventoryParts := 0 }).1 =
      true ∧
      performCacheValidationM
        { now := 10000000, metadataStoreExists := true,
          popFlag := some (9000000, true), cacheInfo := none, countParts := 0,
          countColors := 0, countInventories := 0, countInventoryParts := 0 } =
        false) ∧
    (isPopulationInProgressM
        { now := 10000000, metadataStoreExists := true,
          popFlag := some (5000000, true), cacheInfo := none, countParts := 0,
          countColors := 0, countInventories := 0, countInventoryParts := 0 } =
      (false, none) ∧
      performCacheValidationM
        { now := 10000000, metadataStoreExists := true,
          popFlag := some (5000000, true), cacheInfo := none, countParts := 0,
          countColors := 0, countInventories := 0, countInventoryParts := 0 } =
        performCacheValidationM
          { now := 10000000, metadataStoreExists := true, popFlag := none,
            cacheInfo := none, countParts := 0, countColors := 0,
            countInventories := 0, countInventoryParts := 0 }) :=
  ⟨(c7_busy_marker _ 9000000 rfl rfl).1 (by decide),
   (c7_busy_marker _ 5000000 rfl rfl).2 (by decide)⟩

/-! ## Startup reconciliation (`StorageService.loadState`) and claim C8 -/

/-- The localStorage blob under `brickInventoryAppState`: either the new
format `{ data, timestamp }` or the old format holding the state
directly. -/
inductive LSStored (α : Type) : Type
  | newFormat (data : α) (timestamp : Int)
  | oldFormat (data : α)

/-- What startup loading reads: browser support for the structured store,
its session-disable status, the structured-store app-state record
`(data, timestamp)`, and the fallback-store blob. -/
structure StorageEnv (α : Type) where
  idbSupported : Bool
  idbDisabled : Bool
  idbRecord : Option (α × Int)
  lsRecord : Option (LSStored α)

/-- Embeds `getLocalStorageTimestamp`: only a new-format blob with truthy
`data` and `timestamp` yields a timestamp (`0` is falsy). -/
def getLocalStorageTimestampM {α : Type} (env : StorageEnv α) : Option Int :=
  match env.lsRecord with
  | some (.newFormat _ t) => if t ≠ 0 then some t else none
  | _ => none

/-- Embeds `loadAppStateWithTimestamp`: resolves only when the record with
truthy `data` and `timestamp` is present. -/
def loadAppStateWithTimestampM {α : Type} (env : StorageEnv α) : Option (α × Int) :=
  match env.idbRecord with
  | some (d, t) => if t ≠ 0 then some (d, t) else none
  | none => none

/-- Embeds `StorageService.loadFromIndexedDB`: nothing when unsupported or
disabled; otherwise the structured-store copy, unless the fallback store
holds a strictly newer timestamp, in which case `null` is returned so the
caller falls through to the fallback. -/
def loadFromIndexedDBM {α : Type} (env : StorageEnv α) : Option α :=
  if ¬env.idbSupported ∨ env.idbDisabled then none
  else
    match loadAppStateWithTimestampM env with
    | none => none
    | some (d, t) =>
      match getLocalStorageTimestampM env with
      | some lt => if t < lt then none else some d
      | none => some d

/-- Embeds `loadFromLocalStorage`: a new-format blob with its timestamp, or
an old-format blob with timestamp `0`. -/
def loadFromLocalStorageM {α : Type} (env : StorageEnv α) : Option (α × Int) :=
  match env.lsRecord with
  | some (.newFormat d t) => some (d, t)
  | some (.oldFormat d) => some (d, 0)
  | none => none

/-- Which copy `loadState` ends up loading. -/
inductive LoadOutcome (α : Type) : Type
  | structured (data : α)
  | fallback (data : α)
  | defaultState

/-- Embeds `loadState`: the structured store is tried first when supported
and not disabled for the session (`checkIndexedDBSupport`), then the
localStorage fallback, then the default state. -/
def loadStateM {α : Type} (env : StorageEnv α) : LoadOutcome α :=
  match (if env.idbSupported && !env.idbDisabled then loadFromIndexedDBM env
    else none) with
  | some d => .structured d
  | none =>
    match loadFromLocalStorageM env with
    | some (d, _) => .fallback d
    | none => .defaultState

/-- C8: when both stores hold app-state data with (positive, i.e. truthy)
timestamps `t1` (structured) and `t2` (fallback), startup loads the copy
with the strictly larger timestamp, and on a tie the structured store's
copy is preferred. -/
theorem c8_reconciliation {α : Type} (d1 d2 : α) (t1 t2 : Int)
    (h1 : 0 < t1) (h2 : 0 < t2) :
    loadStateM
      { idbSupported := true, idbDisabled := false, idbRecord := some (d1, t1),
        lsRecord := some (.newFormat d2 t2) } =
      (if t1 < t2 then LoadOutcome.fallback d2 else LoadOutcome.structured d1) := by
  unfold loadStateM loadFromIndexedDBM loadAppStateWithTimestampM
    getLocalStorageTimestampM loadFromLocalStorageM
  have ht1 : t1 ≠ 0 := by omega
  have ht2 : t2 ≠ 0 := by omega
  by_cases hlt : t1 < t2
  · simp [ht1, ht2, hlt]
  · simp [ht1, ht2, hlt]

/-- Witness for `c8_reconciliation` at concrete inputs. -/
theorem c8_reconciliation_witness :
    loadStateM
      { idbSupported := true, idbDisabled := false,
        idbRecord := some ((0 : Nat), (5 : Int)),
        lsRecord := some (.newFormat (1 : Nat) (7 : Int)) } =
      (if (5 : Int) < 7 then LoadOutcome.fallback 1
        else LoadOutcome.structured 0) :=
  c8_reconciliation 0 1 5 7 (by decide) (by decide)

end BrickInv
